import Mathlib

/-!
Verification development for the OpenBB provider fetch pipeline
(Polygon crypto historical model and the equity historical standard model).

The Python sources are shallowly embedded: pure functions become Lean
functions, pydantic validation becomes explicit `Except` returns, the
in-place mutation of the params dict in `transform_query` becomes explicit
state passing (the returned dict is the post-call state of the caller
object, since the source binds `transformed_params = params` by reference),
and the async pagination callback becomes a recursion over the list of
pages the mock transport would serve.  Strings are modelled over ASCII,
which covers every token the pipeline manipulates (interval tokens,
ticker symbols, vendor field keys).
-/

/-- Error taxonomy of the pipeline, following the names the project
documentation gives to the pydantic and provider errors:
interval-token failures (a `ValueError` or `KeyError` escaping
`get_api_interval_params`), query field validation failures, a missing
required credential, an empty transformed batch, and a record that fails
field validation. -/
inductive PipelineError where
  | invalidInterval
  | queryValidation
  | missingCredential
  | emptyData
  | recordValidation
deriving DecidableEq

/-- ASCII uppercasing of one character, as `str.upper` acts on the ASCII
range (the only range ticker symbols use). -/
def asciiUpper (c : Char) : Char :=
  if 97 ≤ c.toNat ∧ c.toNat ≤ 122 then Char.ofNat (c.toNat - 32) else c

/-- Digit accumulator for the body of a Python integer literal string:
digits, with single underscores allowed only between two digits. -/
def pyDigitsGo (acc : Nat) : List Char → Option Nat
  | [] => some acc
  | [c] => if c.isDigit then some (10 * acc + (c.toNat - 48)) else none
  | c :: c2 :: cs =>
    if c.isDigit then pyDigitsGo (10 * acc + (c.toNat - 48)) (c2 :: cs)
    else if c = '_' ∧ c2.isDigit then pyDigitsGo acc (c2 :: cs)
    else none

/-- Nonempty ASCII digit sequence (with Python underscore grouping),
returning its value; the first character must be a digit. -/
def pyDigits : List Char → Option Nat
  | [] => none
  | c :: cs => if c.isDigit then pyDigitsGo (c.toNat - 48) cs else none

/-- Python `int(s)` on a string: strip surrounding whitespace, allow one
leading sign, then a digit sequence; anything else raises `ValueError`,
modelled as `none`. -/
def pyIntCore (l : List Char) : Option Int :=
  let t := ((l.dropWhile Char.isWhitespace).reverse.dropWhile
    Char.isWhitespace).reverse
  match t with
  | '+' :: rest => (pyDigits rest).map (fun n => (n : Int))
  | '-' :: rest => (pyDigits rest).map (fun n => -(n : Int))
  | _ => (pyDigits t).map (fun n => (n : Int))

/-- The interval vocabulary of `get_api_interval_params`: unit letter to
canonical Polygon timespan name. -/
def intervals : List (Char × String) :=
  [('s', "second"), ('m', "minute"), ('h', "hour"), ('d', "day"),
   ('W', "week"), ('M', "month"), ('Q', "quarter"), ('Y', "year")]

/-- Lookup of the unit letter in the `intervals` table; `none` models the
`KeyError` of `intervals[values.interval[-1]]`. -/
def intervalUnit (c : Char) : Option String :=
  (intervals.find? (fun p => p.1 == c)).map (fun p => p.2)

/-- The model validator of `PolygonCryptoHistoricalQueryParams`:
`_multiplier = int(interval[:-1])` and `_timespan = intervals[interval[-1]]`.
A `ValueError` from `int` or a `KeyError` from the table lookup escapes as
a pydantic validation error, the spec name for which is
`InvalidIntervalError`.  Note that pydantic private attributes are not
validated, so the `PositiveInt` annotation on `_multiplier` is not
enforced: any integer the digit portion parses to is stored. -/
def get_api_interval_params (interval : String) :
    Except PipelineError (Int × String) :=
  match pyIntCore interval.data.dropLast with
  | none => .error .invalidInterval
  | some n =>
    match interval.data.getLast? with
    | none => .error .invalidInterval
    | some u =>
      match intervalUnit u with
      | none => .error .invalidInterval
      | some name => .ok (n, name)

/-- Calendar date, the value `datetime.now().date()` and the query date
fields range over. -/
structure Date where
  y : Nat
  m : Nat
  d : Nat
deriving DecidableEq

/-- Gregorian leap year rule, as `dateutil` applies it when clamping. -/
def isLeap (y : Nat) : Bool :=
  y % 4 = 0 && (y % 100 != 0 || y % 400 = 0)

/-- Number of days in a month of a given year. -/
def daysInMonth (y m : Nat) : Nat :=
  if m = 2 then (if isLeap y then 29 else 28)
  else if m = 4 ∨ m = 6 ∨ m = 9 ∨ m = 11 then 30
  else 31

/-- The value of `d - relativedelta(years=1)`: previous year, same month,
with the day clamped to the length of that month (so Feb 29 maps to
Feb 28 of a common year). -/
def pySubYears1 (d : Date) : Date :=
  ⟨d.y - 1, d.m, min d.d (daysInMonth (d.y - 1) d.m)⟩

/-- Strict lexicographic order on dates. -/
def dateLt (a b : Date) : Bool :=
  a.y < b.y || (a.y = b.y && (a.m < b.m || (a.m = b.m && a.d < b.d)))

/-- Sort order enum of the query (`Literal["asc", "desc"]`). -/
inductive SortOrder where
  | asc
  | desc
deriving DecidableEq

/-- The caller-supplied params dict of `transform_query`, restricted to the
keys the pipeline reads; a missing key is `none`. -/
structure ParamsDict where
  symbol : Option String
  start_date : Option Date
  end_date : Option Date
  interval : Option String
  sort : Option SortOrder
  limit : Option Int
deriving DecidableEq

/-- Python `s.replace("-", "")`: every dash is removed. -/
def removeDashes (s : String) : String :=
  String.mk (s.data.filter (fun c => c != '-'))

/-- Python `s.upper()` over the ASCII range. -/
def pyUpper (s : String) : String :=
  String.mk (s.data.map asciiUpper)

/-- State of the caller dict after `transform_query` ran its three updates.
The source binds `transformed_params = params`, aliasing the caller dict,
so every write below lands in the caller object: this function returns the
post-call state the caller observes.  Writes, in source order: default
`start_date` to one year before today, default `end_date` to today, and
replace a truthy (present and nonempty) symbol by its dash-free form. -/
def transformDict (today : Date) (p : ParamsDict) : ParamsDict :=
  let p1 := if p.start_date = none
    then { p with start_date := some (pySubYears1 today) } else p
  let p2 := if p1.end_date = none
    then { p1 with end_date := some today } else p1
  match p2.symbol with
  | some s => if s = "" then p2 else { p2 with symbol := some (removeDashes s) }
  | none => p2

/-- The fully derived Polygon query: the declared fields of
`PolygonCryptoHistoricalQueryParams` plus the two private attributes the
model validator fills in. -/
structure PolygonQuery where
  symbol : String
  interval : String
  start_date : Option Date
  end_date : Option Date
  sort : SortOrder
  limit : Int
  multiplier : Int
  timespan : String
deriving DecidableEq

/-- Construction of `PolygonCryptoHistoricalQueryParams(**transformed_params)`.
Field stage first: the required `symbol` (uppercased by the standard model
validator and, modelled from the spec, rejected when empty), the
`PositiveInt` bound on `limit`, and, modelled from the spec, the
`start_date <= end_date` requirement — each failure is the spec name
`QueryValidationError`.  The interval model validator runs after the field
stage, so its failure surfaces only when the fields pass.

Modelled from the spec: the base `CryptoHistoricalQueryParams` class is not
under src, so its symbol-nonempty and date-ordering validation are taken
from the spec sentence listing the `QueryValidationError` conditions. -/
def mkQueryParams (p : ParamsDict) : Except PipelineError PolygonQuery :=
  match p.symbol with
  | none => .error .queryValidation
  | some s0 =>
    let s := pyUpper s0
    if s = "" then .error .queryValidation
    else
      let lim := p.limit.getD 49999
      if lim ≤ 0 then .error .queryValidation
      else
        let datesOk := match p.start_date, p.end_date with
          | some sd, some ed => !dateLt ed sd
          | _, _ => true
        if datesOk = false then .error .queryValidation
        else
          let iv := p.interval.getD "1d"
          match get_api_interval_params iv with
          | .error e => .error e
          | .ok (mult, tspan) =>
            .ok ⟨s, iv, p.start_date, p.end_date, p.sort.getD .desc,
              lim, mult, tspan⟩

/-- `PolygonCryptoHistoricalFetcher.transform_query`: run the in-place dict
updates, then construct the pydantic query model from the result. -/
def transform_query (today : Date) (p : ParamsDict) :
    Except PipelineError PolygonQuery :=
  mkQueryParams (transformDict today p)

/-- Proleptic Gregorian civil date (year, month, day) of a nonnegative
count of days since 1970-01-01, the conversion `datetime.fromtimestamp`
performs for the date part of a UTC instant. -/
def civilFromDays (z : Nat) : Nat × Nat × Nat :=
  let zs := z + 719468
  let era := zs / 146097
  let doe := zs % 146097
  let yoe := (doe - doe / 1460 + doe / 36524 - doe / 146096) / 365
  let y := yoe + era * 400
  let doy := doe - (365 * yoe + yoe / 4 - yoe / 100)
  let mp := (5 * doy + 2) / 153
  let d := doy - (153 * mp + 2) / 5 + 1
  let m := if mp < 10 then mp + 3 else mp - 9
  (if m ≤ 2 then y + 1 else y, m, d)

/-- Decimal digits of `n` padded with leading zeros to width `w`. -/
def padDigits (w n : Nat) : List Char :=
  let ds := Nat.toDigits 10 n
  List.replicate (w - ds.length) '0' ++ ds

/-- The `%z` rendering of the `pytz` UTC zone: an explicit zero offset. -/
def utcOffsetSuffix : List Char := ['+', '0', '0', '0', '0']

/-- Date-and-time portion of `strftime("%Y-%m-%dT%H:%M:%S%z")` for the UTC
instant `sec` seconds after the epoch (the `%z` suffix is appended by
`strftimeISO`). -/
def dtPart (sec : Nat) : List Char :=
  let ymd := civilFromDays (sec / 86400)
  let rem := sec % 86400
  padDigits 4 ymd.1 ++ '-' :: padDigits 2 ymd.2.1 ++ '-' :: padDigits 2 ymd.2.2
    ++ 'T' :: padDigits 2 (rem / 3600) ++ ':' :: padDigits 2 (rem % 3600 / 60)
    ++ ':' :: padDigits 2 (rem % 60) ++ []

/-- Full `strftime("%Y-%m-%dT%H:%M:%S%z")` output for a UTC instant. -/
def strftimeISO (sec : Nat) : List Char :=
  dtPart sec ++ utcOffsetSuffix

/-- The value stored back into the row key `t` after timestamp
post-processing: either a date-only value or the formatted text. -/
inductive TVal where
  | dateOnly (ymd : Nat × Nat × Nat)
  | text (s : List Char)
deriving DecidableEq

/-- Timestamp post-processing of one row in the pagination callback:
`datetime.fromtimestamp(t / 1000, tz=UTC)` followed by `.date()` when the
derived timespan is not second, minute or hour, and by the textual
`strftime` rendering otherwise. -/
def procT (timespan : String) (ms : Nat) : TVal :=
  let sec := ms / 1000
  if timespan ∉ (["second", "minute", "hour"] : List String) then
    .dateOnly (civilFromDays (sec / 86400))
  else
    .text (strftimeISO sec)

/-- Raw result row of one vendor page, under the Polygon aggregate keys:
`t` is the epoch-millisecond bar timestamp, the numeric fields may be
absent from a payload. -/
structure RawRow where
  t : Nat
  o : Option Rat
  h : Option Rat
  l : Option Rat
  c : Option Rat
  v : Option Rat
  vw : Option Rat
  n : Option Int
deriving DecidableEq

/-- Row after the callback post-processing: the timestamp replaced by its
`TVal` and the symbol stamp added for multi-symbol queries. -/
structure ProcRow where
  t : TVal
  o : Option Rat
  h : Option Rat
  l : Option Rat
  c : Option Rat
  v : Option Rat
  vw : Option Rat
  n : Option Int
  symbol : Option String
deriving DecidableEq

/-- Python `s.replace("X:", "")`: drop every occurrence of the two-letter
vendor prefix, scanning left to right. -/
def removeXColon : List Char → List Char
  | [] => []
  | 'X' :: ':' :: rest => removeXColon rest
  | c :: rest => c :: removeXColon rest

/-- Per-row body of the callback `for` loop: post-process the timestamp
and, when the query names several comma-joined symbols, stamp the row with
the originating symbol taken from the request URL (prefix stripped). -/
def processRow (q : PolygonQuery) (symPart : String) (r : RawRow) : ProcRow :=
  ⟨procT q.timespan r.t, r.o, r.h, r.l, r.c, r.v, r.vw, r.n,
    if q.symbol.data.contains ',' then
      some (String.mk (removeXColon symPart.data))
    else none⟩

/-- One decoded vendor response: the `results` array and the optional
`next_url` continuation token. -/
structure Page where
  results : List RawRow
  next_url : Option String
deriving DecidableEq

/-- The `while next_url` loop of the callback, run against a mock
transport that serves `pages` in order: follow the token, append the
served results, and repeat until a response carries no token.  Returns the
appended rows and the number of follow-up requests issued.  A token with
an exhausted transport is outside the transport contract; the model
counts the dangling request and stops. -/
def paginate : Option String → List Page → List RawRow × Nat
  | none, _ => ([], 0)
  | some _, [] => ([], 1)
  | some _, p :: rest =>
    let t := paginate p.next_url rest
    (p.results ++ t.1, t.2 + 1)

/-- Aggregation stage of the callback for one symbol: the initial
response `p0` (one request) plus everything the pagination loop appends.
Returns all raw rows in page order and the total request count. -/
def callbackAgg (p0 : Page) (rest : List Page) : List RawRow × Nat :=
  let t := paginate p0.next_url rest
  (p0.results ++ t.1, 1 + t.2)

/-- The whole callback for one symbol: aggregate the pages, then run the
per-row post-processing loop over the aggregated rows. -/
def callbackRun (q : PolygonQuery) (symPart : String) (p0 : Page)
    (rest : List Page) : List ProcRow × Nat :=
  let t := callbackAgg p0 rest
  (t.1.map (processRow q symPart), t.2)

/-- Sequence of per-symbol callback runs: one task per comma-separated
symbol, each against its own slice of the mock transport, their rows
concatenated and their request counts summed. -/
def runTasks (q : PolygonQuery) : List (String × Page × List Page) → List ProcRow × Nat
  | [] => ([], 0)
  | (sym, pages) :: more =>
    let one := callbackRun q (String.mk ('X' :: ':' :: (pyUpper sym).data)) pages.1 pages.2
    let restR := runTasks q more
    (one.1 ++ restR.1, (1 + one.2) + restR.2)

/-- `PolygonCryptoHistoricalFetcher.aextract_data` against a mock
transport: split the comma-joined symbol list, run one callback per
symbol, and aggregate.  The API key only feeds the request URLs, so it
does not affect the returned rows. -/
def aextract_data (q : PolygonQuery) (_apiKey : String)
    (transport : List (Page × List Page)) : List ProcRow × Nat :=
  runTasks q ((q.symbol.splitOn ",").zip transport)

/-- Credential mapping lookup, `credentials.get("polygon_api_key")`. -/
def lookupKey (creds : List (String × String)) (k : String) : Option String :=
  (creds.find? (fun kv => kv.1 == k)).map (fun kv => kv.2)

/-- Modelled from the spec: the enforcement that a required credential is
present happens at extraction start, before any vendor request, and its
absence is `MissingCredentialError`.  The enforcing code (the openbb_core
query executor) is not under src; the `aextract_data` body itself only
substitutes an empty key. -/
def getRequiredCredential (creds : List (String × String)) :
    Except PipelineError String :=
  match lookupKey creds "polygon_api_key" with
  | none => .error .missingCredential
  | some k => .ok k

/-- Canonical validated record, the fields of
`PolygonCryptoHistoricalData` after aliasing `t o h l c v vw n` onto their
canonical names (`open` is spelled `opn`, `open` being a Lean keyword). -/
structure CryptoRecord where
  date : TVal
  opn : Rat
  high : Rat
  low : Rat
  close : Rat
  volume : Option Rat
  vwap : Option Rat
  transactions : Option Int
  symbol : Option String
deriving DecidableEq

/-- Modelled from the spec: `model_validate` of the canonical record — the
base `CryptoHistoricalData` class is not under src, so required fields
come from the spec schema: `open`, `high`, `low`, `close` are required,
`volume`, `vwap` and the symbol stamp are optional, and `transactions`
(declared in src as `Optional[PositiveInt]`) must be positive when
present.  A failing row raises a pydantic validation error. -/
def model_validate (r : ProcRow) : Except PipelineError CryptoRecord :=
  match r.o, r.h, r.l, r.c with
  | some o, some hi, some lo, some c =>
    match r.n with
    | some k =>
      if k ≤ 0 then .error .recordValidation
      else .ok ⟨r.t, o, hi, lo, c, r.v, r.vw, some k, r.symbol⟩
    | none => .ok ⟨r.t, o, hi, lo, c, r.v, r.vw, none, r.symbol⟩
  | _, _, _, _ => .error .recordValidation

/-- Sequential validation of the batch, as the list comprehension
evaluates it: the first failing row aborts with its error. -/
def validateAll : List ProcRow → Except PipelineError (List CryptoRecord)
  | [] => .ok []
  | r :: rs =>
    match model_validate r with
    | .error e => .error e
    | .ok rec =>
      match validateAll rs with
      | .error e => .error e
      | .ok recs => .ok (rec :: recs)

/-- `PolygonCryptoHistoricalFetcher.transform_data`: raise `EmptyDataError`
on an empty batch, otherwise validate every row in order. -/
def transform_data (data : List ProcRow) :
    Except PipelineError (List CryptoRecord) :=
  if data = [] then .error .emptyData
  else validateAll data

/-- The three-stage fetch pipeline (`Fetcher.fetch_data` composes the
stages; the composition order is fixed by the spec): normalize the query,
enforce the credential, extract against the mock transport, transform.
The second component counts the vendor requests issued. -/
def fetch_data (today : Date) (params : ParamsDict)
    (credentials : List (String × String))
    (transport : List (Page × List Page)) :
    Except PipelineError (List CryptoRecord) × Nat :=
  match transform_query today params with
  | .error e => (.error e, 0)
  | .ok q =>
    match getRequiredCredential credentials with
    | .error e => (.error e, 0)
    | .ok key =>
      let t := aextract_data q key transport
      (transform_data t.1, t.2)

/-- Datetime value as `dateutil.parser.isoparse` returns it inside
`EquityHistoricalData.date_validate`. -/
structure PyDT where
  year : Nat
  month : Nat
  day : Nat
  hour : Nat
  minute : Nat
  second : Nat
  microsecond : Nat
deriving DecidableEq

/-- Result type of the `date` field validator: the pydantic field is
`Union[date, datetime]`. -/
inductive DateOrDatetime where
  | dateOnly (y m d : Nat)
  | dateTime (v : PyDT)
deriving DecidableEq

/-- `EquityHistoricalData.date_validate`: return the bare date when the
parsed value has hour zero and minute zero, the full datetime otherwise. -/
def date_validate (v : PyDT) : DateOrDatetime :=
  if v.hour = 0 ∧ v.minute = 0 then .dateOnly v.year v.month v.day
  else .dateTime v

/-- The composite symbol normalization the pipeline applies to a symbol:
the dict update strips the dash separators, then the standard-model
validator uppercases. -/
def normalizeSymbol (s : String) : String :=
  pyUpper (removeDashes s)

theorem charToNat_ofNat_valid (n : Nat) (h : n.isValidChar) :
    (Char.ofNat n).toNat = n := by
  rw [Char.ofNat, dif_pos h]
  rfl

theorem asciiUpper_of_not_range (c : Char)
    (h : ¬(97 ≤ c.toNat ∧ c.toNat ≤ 122)) : asciiUpper c = c := by
  unfold asciiUpper
  rw [if_neg h]

theorem asciiUpper_toNat_of_range (c : Char)
    (h : 97 ≤ c.toNat ∧ c.toNat ≤ 122) : (asciiUpper c).toNat = c.toNat - 32 := by
  unfold asciiUpper
  rw [if_pos h]
  exact charToNat_ofNat_valid _ (Or.inl (by omega))

theorem asciiUpper_idem (c : Char) : asciiUpper (asciiUpper c) = asciiUpper c := by
  by_cases h : 97 ≤ c.toNat ∧ c.toNat ≤ 122
  · apply asciiUpper_of_not_range
    rw [asciiUpper_toNat_of_range c h]
    omega
  · rw [asciiUpper_of_not_range c h]
    exact asciiUpper_of_not_range c h

theorem asciiUpper_ne_dash (c : Char) (hne : c ≠ '-') : asciiUpper c ≠ '-' := by
  by_cases h : 97 ≤ c.toNat ∧ c.toNat ≤ 122
  · intro heq
    have h45 := congrArg Char.toNat heq
    rw [asciiUpper_toNat_of_range c h] at h45
    have hd : ('-' : Char).toNat = 45 := by decide
    omega
  · rw [asciiUpper_of_not_range c h]
    exact hne

/-- C9: symbol normalization (dash removal followed by uppercasing) is
idempotent — on a symbol that is already uppercase (every character fixed
by ASCII uppercasing) and free of dash separators it is the identity, and
applying it twice always equals applying it once. -/
theorem normalizeSymbol_idempotent (s : String) :
    ((∀ c ∈ s.data, asciiUpper c = c ∧ c ≠ '-') → normalizeSymbol s = s) ∧
    normalizeSymbol (normalizeSymbol s) = normalizeSymbol s := by
  cases s with
  | mk l =>
    constructor
    · intro h
      show String.mk ((l.filter (fun c => c != '-')).map asciiUpper) = String.mk l
      apply congrArg String.mk
      have hfix : l.filter (fun c => c != '-') = l :=
        List.filter_eq_self.mpr (fun c hc => bne_iff_ne.mpr (h c hc).2)
      rw [hfix]
      calc l.map asciiUpper = l.map id :=
        List.map_congr_left (fun c hc => (h c hc).1)
      _ = l := List.map_id l
    · show String.mk ((((l.filter (fun c => c != '-')).map asciiUpper).filter
          (fun c => c != '-')).map asciiUpper) =
        String.mk ((l.filter (fun c => c != '-')).map asciiUpper)
      apply congrArg String.mk
      have hfix : ((l.filter (fun c => c != '-')).map asciiUpper).filter
          (fun c => c != '-') = (l.filter (fun c => c != '-')).map asciiUpper := by
        apply List.filter_eq_self.mpr
        intro c hc
        obtain ⟨c0, hc0, rfl⟩ := List.mem_map.mp hc
        have hc0d : c0 ≠ '-' := bne_iff_ne.mp (List.mem_filter.mp hc0).2
        exact bne_iff_ne.mpr (asciiUpper_ne_dash c0 hc0d)
      rw [hfix, List.map_map]
      exact List.map_congr_left (fun c _ => asciiUpper_idem c)

/-- C9 witness: an already-normalized symbol is fixed, and normalizing a
dashed lowercase symbol twice equals normalizing it once. -/
theorem normalizeSymbol_idempotent_witness :
    normalizeSymbol "BTCUSD" = "BTCUSD" ∧
    normalizeSymbol (normalizeSymbol "btc-usd") = normalizeSymbol "btc-usd" :=
  ⟨(normalizeSymbol_idempotent "BTCUSD").1 (by decide),
   (normalizeSymbol_idempotent "btc-usd").2⟩

/-- C1: evaluation of the interval validator at the claim inputs.  Valid
tokens parse to their (multiplier, canonical unit); an unrecognized unit
letter and a missing digit portion fail; but the zero and negative
multiplier tokens are ACCEPTED, because pydantic never validates private
attributes, so the `PositiveInt` annotation on `_multiplier` is a dead
letter — contradicting the claim (and the annotation itself) that a
multiplier of zero or below fails with `InvalidIntervalError`. -/
theorem interval_params_zero_multiplier_accepted :
    get_api_interval_params "0d" = .ok (0, "day") ∧
    get_api_interval_params "-3d" = .ok (-3, "day") ∧
    get_api_interval_params "15m" = .ok (15, "minute") ∧
    get_api_interval_params "7x" = .error .invalidInterval ∧
    get_api_interval_params "d" = .error .invalidInterval ∧
    get_api_interval_params "" = .error .invalidInterval :=
  ⟨rfl, rfl, rfl, rfl, rfl, rfl⟩

/-- C7 counterexample: a timestamp at 00:00:30 — a nonzero intraday
offset — is still truncated to a date-only value, because the validator
only examines the hour and the minute. -/
theorem date_validate_seconds_counterexample :
    date_validate ⟨2024, 1, 1, 0, 0, 30, 0⟩ = .dateOnly 2024 1 1 ∧
    (⟨2024, 1, 1, 0, 0, 30, 0⟩ : PyDT).second ≠ 0 :=
  ⟨rfl, by decide⟩

/-- C7 amended: the `date` field is stored date-only exactly when the
parsed timestamp has hour zero AND minute zero; seconds and microseconds
are not examined.  Otherwise the full datetime is stored unchanged. -/
theorem date_validate_hour_minute_only (v : PyDT) :
    (date_validate v = .dateOnly v.year v.month v.day ↔
      (v.hour = 0 ∧ v.minute = 0)) ∧
    (¬(v.hour = 0 ∧ v.minute = 0) → date_validate v = .dateTime v) := by
  by_cases h : v.hour = 0 ∧ v.minute = 0 <;> simp [date_validate, h]

/-- C7 amended witness: a true midnight value becomes date-only, and a
value at 10:30 stays a full datetime. -/
theorem date_validate_hour_minute_only_witness :
    date_validate ⟨2024, 1, 1, 0, 0, 0, 0⟩ = .dateOnly 2024 1 1 ∧
    date_validate ⟨2024, 1, 1, 10, 30, 0, 0⟩ = .dateTime ⟨2024, 1, 1, 10, 30, 0, 0⟩ :=
  ⟨(date_validate_hour_minute_only ⟨2024, 1, 1, 0, 0, 0, 0⟩).1.mpr ⟨rfl, rfl⟩,
   (date_validate_hour_minute_only ⟨2024, 1, 1, 10, 30, 0, 0⟩).2 (by decide)⟩

/-- C6: every extracted row timestamp is converted to the UTC instant
`ms / 1000` seconds after the epoch; under a day, week, month, quarter or
year timespan it becomes the date-only civil date of that instant, and
under a second, minute or hour timespan it becomes the formatted text
carrying the explicit UTC offset suffix `+0000`. -/
theorem timestamp_granularity_conversion (ms : Nat) (ts : String) :
    (ts ∈ (["day", "week", "month", "quarter", "year"] : List String) →
      procT ts ms = .dateOnly (civilFromDays (ms / 1000 / 86400))) ∧
    (ts ∈ (["second", "minute", "hour"] : List String) →
      ∃ pre, procT ts ms = .text (pre ++ utcOffsetSuffix)) := by
  constructor
  · intro h
    simp only [List.mem_cons, List.mem_singleton, List.not_mem_nil, or_false] at h
    rcases h with rfl | rfl | rfl | rfl | rfl <;>
      · rw [procT, if_pos (by decide)]
  · intro h
    simp only [List.mem_cons, List.mem_singleton, List.not_mem_nil, or_false] at h
    rcases h with rfl | rfl | rfl <;>
      · rw [procT, if_neg (by decide)]
        exact ⟨dtPart (ms / 1000), rfl⟩

/-- C6 witness: the midnight epoch value 1704067200000 ms renders
date-only under a daily query and as an offset-carrying text under an
hourly query. -/
theorem timestamp_granularity_conversion_witness :
    procT "day" 1704067200000 = .dateOnly (civilFromDays (1704067200000 / 1000 / 86400)) ∧
    ∃ pre, procT "hour" 1704067200000 = .text (pre ++ utcOffsetSuffix) :=
  ⟨(timestamp_granularity_conversion 1704067200000 "day").1 (by decide),
   (timestamp_granularity_conversion 1704067200000 "hour").2 (by decide)⟩

theorem model_validate_error_kind (r : ProcRow) (e : PipelineError)
    (h : model_validate r = .error e) : e = .recordValidation := by
  unfold model_validate at h
  repeat' split at h
  all_goals simp_all

theorem validateAll_error_kind (l : List ProcRow) :
    ∀ e, validateAll l = .error e → e = .recordValidation := by
  induction l with
  | nil =>
    intro e h
    simp [validateAll] at h
  | cons r rs ih =>
    intro e h
    unfold validateAll at h
    cases hv : model_validate r with
    | error e0 =>
      rw [hv] at h
      injection h with h1
      subst h1
      exact model_validate_error_kind r e0 hv
    | ok rec =>
      rw [hv] at h
      cases hva : validateAll rs with
      | error e0 =>
        rw [hva] at h
        injection h with h1
        subst h1
        exact ih e0 hva
      | ok recs =>
        rw [hva] at h
        exact absurd h (by simp)

theorem validateAll_ok_iff (l : List ProcRow) :
    ∀ recs, validateAll l = .ok recs ↔
      List.Forall₂ (fun r rec => model_validate r = .ok rec) l recs := by
  induction l with
  | nil =>
    intro recs
    simp [validateAll, List.forall₂_nil_left_iff, eq_comm]
  | cons r rs ih =>
    intro recs
    constructor
    · intro h
      unfold validateAll at h
      cases hv : model_validate r with
      | error e =>
        rw [hv] at h
        exact absurd h (by simp)
      | ok rec =>
        rw [hv] at h
        cases hva : validateAll rs with
        | error e =>
          rw [hva] at h
          exact absurd h (by simp)
        | ok recs0 =>
          rw [hva] at h
          have hrecs : rec :: recs0 = recs := by
            injection h
          subst hrecs
          exact List.Forall₂.cons hv ((ih recs0).mp hva)
    · intro h
      cases h with
      | cons hr hrest =>
        unfold validateAll
        rw [hr, (ih _).mpr hrest]

/-- C3 counterexample: a NON-empty batch whose single row lacks the
required opening price is not returned as records — it fails row
validation, so the claim that every non-empty batch yields one record per
row does not hold. -/
theorem transform_data_invalid_row_counterexample :
    transform_data [⟨.dateOnly (2024, 1, 1), none, some 1, some 1, some 1,
      none, none, none, none⟩] = .error .recordValidation := rfl

/-- C3 amended: the transform stage raises `EmptyDataError` exactly on an
empty batch; a non-empty batch is returned as one validated record per raw
row, in the same order, precisely when every row passes validation — a
failing row aborts the batch with a validation error instead. -/
theorem transform_data_empty_iff_and_rowwise (data : List ProcRow) :
    (transform_data data = .error .emptyData ↔ data = []) ∧
    (∀ recs, transform_data data = .ok recs ↔
      (data ≠ [] ∧
        List.Forall₂ (fun r rec => model_validate r = .ok rec) data recs)) := by
  by_cases hd : data = []
  · subst hd
    refine ⟨by simp [transform_data], fun recs => by simp [transform_data]⟩
  · constructor
    · rw [transform_data, if_neg hd]
      constructor
      · intro h
        exact absurd (validateAll_error_kind data _ h) (by simp)
      · intro h
        exact absurd h hd
    · intro recs
      rw [transform_data, if_neg hd, validateAll_ok_iff]
      simp [hd]

/-- C3 witness: a well-formed one-row batch is transformed into exactly
its validated record. -/
theorem transform_data_empty_iff_and_rowwise_witness :
    transform_data [⟨.dateOnly (2024, 1, 1), some 1, some 2, some 3, some 4,
      none, none, none, none⟩] =
      .ok [⟨.dateOnly (2024, 1, 1), 1, 2, 3, 4, none, none, none, none⟩] :=
  ((transform_data_empty_iff_and_rowwise
      [⟨.dateOnly (2024, 1, 1), some 1, some 2, some 3, some 4,
        none, none, none, none⟩]).2
    [⟨.dateOnly (2024, 1, 1), 1, 2, 3, 4, none, none, none, none⟩]).mpr
    ⟨by simp, List.Forall₂.cons rfl List.Forall₂.nil⟩

/-- C4: when page i of a per-symbol response sequence carries a
continuation token exactly when it is not the last page, the callback
issues exactly one request per page and returns the concatenation of all
pages in page order — both at the aggregation stage and after the per-row
post-processing the callback applies before returning. -/
theorem pagination_aggregation_complete (q : PolygonQuery) (symPart : String)
    (p0 : Page) (rest : List Page)
    (hchain : ∀ (i : Nat) (h : i < (p0 :: rest).length),
      ((p0 :: rest).get ⟨i, h⟩).next_url.isSome = true ↔
        i + 1 < (p0 :: rest).length) :
    callbackAgg p0 rest =
      (((p0 :: rest).map Page.results).flatten, (p0 :: rest).length) ∧
    callbackRun q symPart p0 rest =
      ((((p0 :: rest).map Page.results).flatten).map (processRow q symPart),
        (p0 :: rest).length) := by
  have key : ∀ (rest : List Page) (p0 : Page),
      (∀ (i : Nat) (h : i < (p0 :: rest).length),
        ((p0 :: rest).get ⟨i, h⟩).next_url.isSome = true ↔
          i + 1 < (p0 :: rest).length) →
      callbackAgg p0 rest =
        (((p0 :: rest).map Page.results).flatten, (p0 :: rest).length) := by
    intro rest
    induction rest with
    | nil =>
      intro p0 h
      have h0 := h 0 (by simp)
      simp only [List.get_cons_zero, List.length_cons] at h0
      have hnone : p0.next_url = none := by
        cases hn : p0.next_url with
        | none => rfl
        | some t =>
          have hcontr := h0.mp (by simp [hn])
          simp at hcontr
      simp [callbackAgg, paginate, hnone]
    | cons p1 rest ih =>
      intro p0 h
      have h0 : p0.next_url.isSome = true :=
        (h 0 (by simp)).mpr (by simp)
      obtain ⟨tok, htok⟩ := Option.isSome_iff_exists.mp h0
      have hshift : ∀ (i : Nat) (hi : i < (p1 :: rest).length),
          ((p1 :: rest).get ⟨i, hi⟩).next_url.isSome = true ↔
            i + 1 < (p1 :: rest).length := by
        intro i hi
        have hstep := h (i + 1) (Nat.succ_lt_succ hi)
        simp only [List.get_cons_succ, List.length_cons] at hstep ⊢
        rw [hstep]
        omega
      have hih := ih p1 hshift
      simp only [callbackAgg] at hih ⊢
      have h1 := congrArg Prod.fst hih
      have h2 := congrArg Prod.snd hih
      simp only at h1 h2
      rw [htok]
      simp only [paginate, List.map_cons, List.flatten_cons, List.length_cons] at h1 h2 ⊢
      rw [Prod.mk.injEq]
      exact ⟨by rw [h1], by omega⟩
  have hmain := key rest p0 hchain
  refine ⟨hmain, ?_⟩
  simp only [callbackRun, hmain]

/-- C4 witness: a two-page sequence (first page tokenized, second not)
produces two requests and the two pages of rows in order. -/
theorem pagination_aggregation_complete_witness :
    callbackAgg ⟨[⟨1, some 1, some 1, some 1, some 1, none, none, none⟩], some "n"⟩
      [⟨[⟨2, some 2, some 2, some 2, some 2, none, none, none⟩], none⟩] =
    ([⟨1, some 1, some 1, some 1, some 1, none, none, none⟩,
      ⟨2, some 2, some 2, some 2, some 2, none, none, none⟩], 2) := by
  have h := (pagination_aggregation_complete
    ⟨"BTCUSD", "1d", none, none, .desc, 49999, 1, "day"⟩ "X:BTCUSD"
    ⟨[⟨1, some 1, some 1, some 1, some 1, none, none, none⟩], some "n"⟩
    [⟨[⟨2, some 2, some 2, some 2, some 2, none, none, none⟩], none⟩]
    (by decide)).1
  rw [h]
  rfl

theorem transformDict_eq (today : Date) (p : ParamsDict) :
    transformDict today p =
      ⟨match p.symbol with
        | some s => if s = "" then some s else some (removeDashes s)
        | none => none,
       some (p.start_date.getD (pySubYears1 today)),
       some (p.end_date.getD today),
       p.interval, p.sort, p.limit⟩ := by
  cases p with
  | mk sy sd ed iv so li =>
    cases sd <;> cases ed <;> cases sy <;>
      simp [transformDict] <;> split <;> simp_all

theorem mkQueryParams_qv (p : ParamsDict)
    (h : p.symbol = none ∨ p.symbol = some "" ∨
      (∃ l, p.limit = some l ∧ l ≤ 0) ∨
      (∃ sd ed, p.start_date = some sd ∧ p.end_date = some ed ∧
        dateLt ed sd = true)) :
    mkQueryParams p = .error .queryValidation := by
  unfold mkQueryParams
  rcases h with h | h | ⟨l, hl, hl0⟩ | ⟨sd, ed, hsd, hed, hlt⟩
  · rw [h]
  · rw [h]
    simp [pyUpper]
  · cases hy : p.symbol with
    | none => simp
    | some s0 =>
      simp only
      by_cases hse : pyUpper s0 = ""
      · rw [if_pos hse]
      · rw [if_neg hse, hl]
        simp only [Option.getD_some]
        rw [if_pos hl0]
  · cases hy : p.symbol with
    | none => simp
    | some s0 =>
      simp only
      by_cases hse : pyUpper s0 = ""
      · rw [if_pos hse]
      · rw [if_neg hse]
        by_cases hlim : p.limit.getD 49999 ≤ 0
        · rw [if_pos hlim]
        · rw [if_neg hlim, hsd, hed]
          simp [hlt]

theorem mkQueryParams_ok_fields (p : ParamsDict) (q : PolygonQuery)
    (hq : mkQueryParams p = .ok q) :
    q.start_date = p.start_date ∧ q.end_date = p.end_date := by
  unfold mkQueryParams at hq
  cases hy : p.symbol with
  | none =>
    rw [hy] at hq
    exact absurd hq (by simp)
  | some s0 =>
    rw [hy] at hq
    simp only at hq
    by_cases hse : pyUpper s0 = ""
    · rw [if_pos hse] at hq
      exact absurd hq (by simp)
    · rw [if_neg hse] at hq
      by_cases hlim : p.limit.getD 49999 ≤ 0
      · rw [if_pos hlim] at hq
        exact absurd hq (by simp)
      · rw [if_neg hlim] at hq
        split at hq
        · exact absurd hq (by simp)
        · cases hgp : get_api_interval_params (p.interval.getD "1d") with
          | error e =>
            rw [hgp] at hq
            exact absurd hq (by simp)
          | ok pr =>
            rw [hgp] at hq
            obtain ⟨mult, tspan⟩ := pr
            have hrec := Except.ok.inj hq
            rw [← hrec]
            exact ⟨rfl, rfl⟩

/-- C2: query normalization rejects an empty (or absent) symbol, a
nonpositive limit, and a start date after the end date with the
`QueryValidationError` failure, and in each case the pipeline issues zero
vendor requests — the failure happens before any network activity. -/
theorem transform_query_validation_failures (today : Date) (p : ParamsDict)
    (creds : List (String × String)) (transport : List (Page × List Page))
    (h : (p.symbol = none ∨ p.symbol = some "") ∨
      (∃ l, p.limit = some l ∧ l ≤ 0) ∨
      (∃ sd ed, p.start_date = some sd ∧ p.end_date = some ed ∧
        dateLt ed sd = true)) :
    transform_query today p = .error .queryValidation ∧
    fetch_data today p creds transport = (.error .queryValidation, 0) := by
  have hq : transform_query today p = .error .queryValidation := by
    unfold transform_query
    apply mkQueryParams_qv
    rcases h with (h | h) | ⟨l, hl, hl0⟩ | ⟨sd, ed, hsd, hed, hlt⟩
    · left
      simp [transformDict_eq, h]
    · right; left
      simp [transformDict_eq, h]
    · right; right; left
      exact ⟨l, by simp [transformDict_eq, hl], hl0⟩
    · right; right; right
      exact ⟨sd, ed, by simp [transformDict_eq, hsd],
        by simp [transformDict_eq, hed], hlt⟩
  refine ⟨hq, ?_⟩
  simp [fetch_data, hq]

/-- C2 witness: an empty symbol is rejected before any request. -/
theorem transform_query_validation_failures_witness :
    fetch_data ⟨2024, 1, 2⟩ ⟨some "", none, none, none, none, none⟩ [] [] =
      (.error .queryValidation, 0) :=
  (transform_query_validation_failures ⟨2024, 1, 2⟩
    ⟨some "", none, none, none, none, none⟩ [] []
    (Or.inl (Or.inr rfl))).2

/-- C5: when the required `polygon_api_key` entry is absent from the
credentials mapping, extraction fails with `MissingCredentialError` at
extraction start and the pipeline issues zero vendor requests. -/
theorem missing_credential_blocks_extraction (today : Date) (p : ParamsDict)
    (creds : List (String × String)) (transport : List (Page × List Page))
    (q : PolygonQuery) (hq : transform_query today p = .ok q)
    (hk : lookupKey creds "polygon_api_key" = none) :
    fetch_data today p creds transport = (.error .missingCredential, 0) := by
  simp [fetch_data, hq, getRequiredCredential, hk]

/-- C5 witness: a well-formed query with an empty credential mapping
fails with the missing-credential error and zero requests. -/
theorem missing_credential_blocks_extraction_witness :
    fetch_data ⟨2024, 1, 2⟩
      ⟨some "BTCUSD", some ⟨2024, 1, 1⟩, some ⟨2024, 1, 2⟩, none, none, none⟩
      [] [] = (.error .missingCredential, 0) :=
  missing_credential_blocks_extraction ⟨2024, 1, 2⟩
    ⟨some "BTCUSD", some ⟨2024, 1, 1⟩, some ⟨2024, 1, 2⟩, none, none, none⟩
    [] []
    ⟨"BTCUSD", "1d", some ⟨2024, 1, 1⟩, some ⟨2024, 1, 2⟩, .desc, 49999, 1, "day"⟩
    rfl rfl

/-- C8: a query supplied with neither date is normalized to an end date
equal to the current date and a start date exactly one calendar year
earlier (`relativedelta(years=1)` subtraction, day clamped), both in the
updated dict and on any successfully constructed query model. -/
theorem default_one_year_window (today : Date) (p : ParamsDict)
    (hs : p.start_date = none) (he : p.end_date = none) :
    (transformDict today p).start_date = some (pySubYears1 today) ∧
    (transformDict today p).end_date = some today ∧
    ∀ q, transform_query today p = .ok q →
      q.start_date = some (pySubYears1 today) ∧ q.end_date = some today := by
  refine ⟨by simp [transformDict_eq, hs], by simp [transformDict_eq, he], ?_⟩
  intro q hq
  have hfields := mkQueryParams_ok_fields _ q hq
  rw [hfields.1, hfields.2]
  constructor
  · simp [transformDict_eq, hs]
  · simp [transformDict_eq, he]

/-- C8 witness: with no dates supplied, a March query gets the trailing
one-year window ending today. -/
theorem default_one_year_window_witness :
    (transformDict ⟨2024, 3, 15⟩
      ⟨some "BTCUSD", none, none, none, none, none⟩).start_date =
        some (pySubYears1 ⟨2024, 3, 15⟩) ∧
    (transformDict ⟨2024, 3, 15⟩
      ⟨some "BTCUSD", none, none, none, none, none⟩).end_date =
        some ⟨2024, 3, 15⟩ :=
  ⟨(default_one_year_window ⟨2024, 3, 15⟩
      ⟨some "BTCUSD", none, none, none, none, none⟩ rfl rfl).1,
   (default_one_year_window ⟨2024, 3, 15⟩
      ⟨some "BTCUSD", none, none, none, none, none⟩ rfl rfl).2.1⟩

/-- C10: `transform_query` mutates the caller dict in place — the binding
`transformed_params = params` aliases it, so after the call the missing
date entries are overwritten with the defaults, a present dashed symbol is
overwritten with its dash-free form, and in each of these cases the dict
the caller holds is no longer equal to what it passed in. -/
theorem transform_query_mutates_caller_dict (today : Date) (p : ParamsDict) :
    (p.start_date = none →
      (transformDict today p).start_date = some (pySubYears1 today)) ∧
    (p.end_date = none → (transformDict today p).end_date = some today) ∧
    (∀ s, p.symbol = some s → s ≠ "" →
      (transformDict today p).symbol = some (removeDashes s)) ∧
    ((p.start_date = none ∨ p.end_date = none ∨
        ∃ s, p.symbol = some s ∧ s ≠ "" ∧ '-' ∈ s.data) →
      transformDict today p ≠ p) := by
  refine ⟨fun hs => by simp [transformDict_eq, hs],
    fun he => by simp [transformDict_eq, he],
    fun s hsy hne => by simp [transformDict_eq, hsy, hne], ?_⟩
  rintro (h | h | ⟨s, hsy, hne, hdash⟩) heq
  · have hfield := congrArg ParamsDict.start_date heq
    simp [transformDict_eq, h] at hfield
  · have hfield := congrArg ParamsDict.end_date heq
    simp [transformDict_eq, h] at hfield
  · have hfield := congrArg ParamsDict.symbol heq
    simp [transformDict_eq, hsy, hne] at hfield
    have hmem : '-' ∈ (removeDashes s).data := by
      rw [hfield]
      exact hdash
    have hmem2 : '-' ∈ s.data.filter (fun c => c != '-') := hmem
    have := (List.mem_filter.mp hmem2).2
    simp at this

/-- C10 witness: a dict with no dates and a dashed symbol is visibly
rewritten in place. -/
theorem transform_query_mutates_caller_dict_witness :
    (transformDict ⟨2024, 1, 2⟩
      ⟨some "BTC-USD", none, none, none, none, none⟩).start_date =
        some (pySubYears1 ⟨2024, 1, 2⟩) ∧
    (transformDict ⟨2024, 1, 2⟩
      ⟨some "BTC-USD", none, none, none, none, none⟩).symbol =
        some (removeDashes "BTC-USD") ∧
    transformDict ⟨2024, 1, 2⟩ ⟨some "BTC-USD", none, none, none, none, none⟩ ≠
      ⟨some "BTC-USD", none, none, none, none, none⟩ :=
  ⟨(transform_query_mutates_caller_dict ⟨2024, 1, 2⟩
      ⟨some "BTC-USD", none, none, none, none, none⟩).1 rfl,
   (transform_query_mutates_caller_dict ⟨2024, 1, 2⟩
      ⟨some "BTC-USD", none, none, none, none, none⟩).2.2.1 "BTC-USD" rfl
      (by decide),
   (transform_query_mutates_caller_dict ⟨2024, 1, 2⟩
      ⟨some "BTC-USD", none, none, none, none, none⟩).2.2.2
      (Or.inl rfl)⟩
